import Mathlib

/-!
Verification of the alpaca-bot trading engine core against its specification.

The definitions below are a shallow embedding of the Python sources:
  * `src/alpaca_bot/utils/technical_analysis.py` (indicator formulas),
  * `src/alpaca_bot/utils/error_handler.py` (retry and circuit breaker),
  * `src/alpaca_bot/strategies/scalping_strategy.py` (signal generation,
    exit rules, position sizing and the order/position lifecycle).

Prices and money amounts are modelled as rationals (`ℚ`); a pandas `NaN`
cell is modelled as `Option.none`.  Where IEEE float behaviour matters it
is noted at the definition.
-/

namespace AlpacaBot

/-! ## Generic association-list operations.

The strategy keeps `active_positions` and `pending_orders` as Python
dicts keyed by symbol; we model them as association lists with
last-write-wins insertion. -/

def lookupA {α : Type} : List (String × α) → String → Option α
  | [], _ => none
  | (k, v) :: l, s => if k = s then some v else lookupA l s

def eraseA {α : Type} (s : String) (l : List (String × α)) : List (String × α) :=
  l.filter (fun kv => kv.1 ≠ s)

def insertA {α : Type} (s : String) (v : α) (l : List (String × α)) : List (String × α) :=
  (s, v) :: eraseA s l

theorem lookupA_eraseA_self {α : Type} (s : String) (l : List (String × α)) :
    lookupA (eraseA s l) s = none := by
  induction l with
  | nil => rfl
  | cons kv l ih =>
    by_cases h : kv.1 = s
    · simpa [eraseA, h] using ih
    · simpa [eraseA, lookupA, h] using ih

theorem lookupA_eraseA_ne {α : Type} (s t : String) (l : List (String × α)) (h : t ≠ s) :
    lookupA (eraseA s l) t = lookupA l t := by
  induction l with
  | nil => rfl
  | cons kv l ih =>
    by_cases hk : kv.1 = s
    · have ht : kv.1 ≠ t := fun hh => h (hh.symm.trans hk)
      rw [show eraseA s (kv :: l) = eraseA s l by simp [eraseA, hk]]
      rw [ih]
      simp [lookupA, ht]
    · rw [show eraseA s (kv :: l) = kv :: eraseA s l by simp [eraseA, hk]]
      by_cases ht : kv.1 = t
      · simp [lookupA, ht]
      · simp only [lookupA, if_neg ht]
        exact ih

theorem lookupA_insertA_self {α : Type} (s : String) (v : α) (l : List (String × α)) :
    lookupA (insertA s v l) s = some v := by
  simp [insertA, lookupA]

theorem lookupA_insertA_ne {α : Type} (s t : String) (v : α) (l : List (String × α))
    (h : t ≠ s) :
    lookupA (insertA s v l) t = lookupA l t := by
  have hs : s ≠ t := fun hh => h hh.symm
  simp only [insertA, lookupA, if_neg hs]
  exact lookupA_eraseA_ne s t l h

/-! ## IndicatorEngine: `technical_analysis.py`

The pandas functions return series aligned with the input; we embed the
value of each output series at index `i` (with `none` for `NaN`). -/

/-- Sum of `f` over the trailing window of `w` indices ending at `i`
(indices `i, i-1, …, i-w+1`), as used by `pandas.rolling(w)`. -/
def windowSum (w i : ℕ) (f : ℕ → ℚ) : ℚ :=
  ((List.range w).map (fun j => f (i - j))).sum

/-- `calculate_sma(data, window)` at index `i`.  pandas
`rolling(window, min_periods=window).mean()` is `NaN` until `window`
samples exist. -/
def calculate_sma (data : List ℚ) (w i : ℕ) : Option ℚ :=
  if 1 ≤ w ∧ w ≤ i + 1 ∧ i < data.length then
    some (windowSum w i (fun j => data.getD j 0) / (w : ℚ))
  else none

/-- `data.diff()` at index `i` (`NaN` at index 0, never consumed below
because RSI is only defined from index `window` on). -/
def deltaAt (data : List ℚ) (i : ℕ) : ℚ :=
  data.getD i 0 - data.getD (i - 1) 0

/-- `delta.where(delta > 0, 0)` at index `i`. -/
def gainAt (data : List ℚ) (i : ℕ) : ℚ := max (deltaAt data i) 0

/-- `(-delta.where(delta < 0, 0))` at index `i`. -/
def lossAt (data : List ℚ) (i : ℕ) : ℚ := max (-(deltaAt data i)) 0

/-- Rolling mean of gains over the trailing `w` deltas. -/
def avgGainAt (data : List ℚ) (w i : ℕ) : ℚ :=
  windowSum w i (gainAt data) / (w : ℚ)

/-- Rolling mean of losses over the trailing `w` deltas. -/
def avgLossAt (data : List ℚ) (w i : ℕ) : ℚ :=
  windowSum w i (lossAt data) / (w : ℚ)

/-- `calculate_rsi(data, window)` at index `i`.

The Python body is `rs = gain / loss; rsi = 100 - (100 / (1 + rs))` on
float series.  Float semantics at `loss = 0`: `gain / 0` is `+inf` when
`gain > 0` (so `rsi = 100 - 0 = 100`) and `NaN` when `gain = 0` (so `rsi`
is `NaN`).  Both cases are written out explicitly here; `none` models
`NaN`.  The first delta of `data.diff()` is `NaN`, but
`delta.where(delta > 0, 0)` masks it to `0` (`NaN > 0` is false), and
likewise for the loss series, so `rolling(window).mean()` is already
defined at index `window - 1`: the RSI is defined exactly for
`window ≤ i + 1`.  (`deltaAt data 0 = 0` in this model, matching the
masked first entry.) -/
def calculate_rsi (data : List ℚ) (w i : ℕ) : Option ℚ :=
  if w ≤ i + 1 ∧ i < data.length then
    if avgLossAt data w i = 0 then
      (if avgGainAt data w i = 0 then none else some 100)
    else some (100 - 100 / (1 + avgGainAt data w i / avgLossAt data w i))
  else none

/-- Rolling sample variance (pandas `rolling(window).std()` squared,
`ddof = 1`): `NaN` unless `window ≤ i+1` samples exist and `window ≥ 2`. -/
def rolling_var (data : List ℚ) (w i : ℕ) : Option ℚ :=
  if 2 ≤ w ∧ w ≤ i + 1 ∧ i < data.length then
    let m := windowSum w i (fun j => data.getD j 0) / (w : ℚ)
    some (windowSum w i (fun j => (data.getD j 0 - m) ^ 2) / ((w : ℚ) - 1))
  else none

/-- `data.rolling(window).std()` at index `i` (square root of the sample
variance). -/
noncomputable def rolling_std (data : List ℚ) (w i : ℕ) : Option ℝ :=
  (rolling_var data w i).map (fun v => Real.sqrt (v : ℝ))

/-- Middle Bollinger band: `middle_band = calculate_sma(data, window)`. -/
def calculate_bollinger_middle (data : List ℚ) (w i : ℕ) : Option ℚ :=
  calculate_sma data w i

/-- Upper Bollinger band: `upper_band = middle_band + (std_dev * num_std)`. -/
noncomputable def calculate_bollinger_upper (data : List ℚ) (w : ℕ) (k : ℚ) (i : ℕ) :
    Option ℝ :=
  match calculate_bollinger_middle data w i, rolling_std data w i with
  | some m, some s => some ((m : ℝ) + s * (k : ℝ))
  | _, _ => none

/-- Lower Bollinger band: `lower_band = middle_band - (std_dev * num_std)`. -/
noncomputable def calculate_bollinger_lower (data : List ℚ) (w : ℕ) (k : ℚ) (i : ℕ) :
    Option ℝ :=
  match calculate_bollinger_middle data w i, rolling_std data w i with
  | some m, some s => some ((m : ℝ) - s * (k : ℝ))
  | _, _ => none

theorem windowSum_nonneg (w i : ℕ) (f : ℕ → ℚ) (h : ∀ j, 0 ≤ f j) :
    0 ≤ windowSum w i f := by
  unfold windowSum
  apply List.sum_nonneg
  intro x hx
  rcases List.mem_map.mp hx with ⟨j, _, rfl⟩
  exact h _

theorem avgGainAt_nonneg (data : List ℚ) (w i : ℕ) : 0 ≤ avgGainAt data w i := by
  unfold avgGainAt
  apply div_nonneg
  · exact windowSum_nonneg _ _ _ (fun j => le_max_right _ _)
  · positivity

theorem avgLossAt_nonneg (data : List ℚ) (w i : ℕ) : 0 ≤ avgLossAt data w i := by
  unfold avgLossAt
  apply div_nonneg
  · exact windowSum_nonneg _ _ _ (fun j => le_max_right _ _)
  · positivity

/-- C5 (amended): every defined RSI value lies in `[0, 100]`, and the RSI is
exactly `100` whenever the trailing-window average loss is `0` while the
average gain is nonzero.  (When gain and loss are both `0` — a flat window —
the Python float computation yields `NaN`, i.e. an undefined value, refuting
the unconditional form of the claim; see the counterexample.) -/
theorem rsi_in_range_and_zero_loss (data : List ℚ) (w i : ℕ) :
    (∀ r : ℚ, calculate_rsi data w i = some r → 0 ≤ r ∧ r ≤ 100) ∧
    (w ≤ i + 1 → i < data.length → avgLossAt data w i = 0 → avgGainAt data w i ≠ 0 →
      calculate_rsi data w i = some 100) := by
  constructor
  · intro r hr
    unfold calculate_rsi at hr
    split at hr
    · split at hr
      · split at hr
        · exact Option.noConfusion hr
        · cases hr
          norm_num
      · rename_i hl0
        cases hr
        have hlpos : 0 < avgLossAt data w i :=
          lt_of_le_of_ne (avgLossAt_nonneg data w i) (Ne.symm hl0)
        have hrs : 0 ≤ avgGainAt data w i / avgLossAt data w i :=
          div_nonneg (avgGainAt_nonneg data w i) hlpos.le
        have hd1 : (0 : ℚ) < 100 / (1 + avgGainAt data w i / avgLossAt data w i) :=
          div_pos (by norm_num) (by linarith)
        have hd2 : 100 / (1 + avgGainAt data w i / avgLossAt data w i) ≤ 100 :=
          div_le_self (by norm_num) (by linarith)
        constructor <;> linarith
    · exact Option.noConfusion hr
  · intro hw hi hl hg
    unfold calculate_rsi
    rw [if_pos ⟨hw, hi⟩, if_pos hl, if_neg hg]

/-- C5, counterexample to the claim as stated: on a constant price series the
trailing-window average loss is exactly `0`, yet the RSI is undefined (`NaN`
from `0/0` in the float computation), not `100`. -/
theorem rsi_zero_loss_counterexample :
    avgLossAt (List.replicate 20 (10 : ℚ)) 14 19 = 0 ∧
    calculate_rsi (List.replicate 20 (10 : ℚ)) 14 19 = none := by
  constructor
  · norm_num [avgLossAt, windowSum, lossAt, deltaAt, List.range_succ, List.replicate]
  · norm_num [calculate_rsi, avgGainAt, avgLossAt, windowSum, gainAt, lossAt, deltaAt,
      List.range_succ, List.replicate]

/-- C5, witness: a series with a single upward move in the window has zero
average loss and positive average gain, so the RSI is exactly `100`, which
lies in `[0, 100]` — evaluated at the first defined index `window - 1 = 13`
of a 14-sample series (the masked first diff counts as a gain/loss of 0). -/
theorem rsi_zero_loss_witness :
    calculate_rsi [1, 1, 1, 1, 1, 1, 1, 1, 1, 1, 1, 1, 1, 2] 14 13 = some 100 ∧
    (0 : ℚ) ≤ 100 ∧ (100 : ℚ) ≤ 100 := by
  have h := rsi_in_range_and_zero_loss [1, 1, 1, 1, 1, 1, 1, 1, 1, 1, 1, 1, 1, 2] 14 13
  have h1 : calculate_rsi [1, 1, 1, 1, 1, 1, 1, 1, 1, 1, 1, 1, 1, 2] 14 13 = some 100 :=
    h.2 (by norm_num) (by norm_num)
      (by norm_num [avgLossAt, windowSum, lossAt, deltaAt, List.range_succ])
      (by norm_num [avgGainAt, windowSum, gainAt, deltaAt, List.range_succ])
  exact ⟨h1, h.1 100 h1⟩

/-- C10: wherever upper, middle and lower Bollinger bands are all defined,
`lower ≤ middle ≤ upper` holds (for `k ≥ 0`), the middle band is the SMA over
the window, and the upper/lower bands are middle plus/minus `k` times the
rolling standard deviation. -/
theorem bollinger_band_ordering (data : List ℚ) (w : ℕ) (k : ℚ) (i : ℕ) (hk : 0 ≤ k) :
    calculate_bollinger_middle data w i = calculate_sma data w i ∧
    (∀ (u : ℝ) (m : ℚ) (l s : ℝ),
      calculate_bollinger_upper data w k i = some u →
      calculate_bollinger_middle data w i = some m →
      calculate_bollinger_lower data w k i = some l →
      rolling_std data w i = some s →
      u = (m : ℝ) + s * (k : ℝ) ∧ l = (m : ℝ) - s * (k : ℝ) ∧
      l ≤ (m : ℝ) ∧ (m : ℝ) ≤ u) := by
  refine ⟨rfl, ?_⟩
  intro u m l s hu hm hl hs
  have hs0 : 0 ≤ s := by
    unfold rolling_std at hs
    rcases Option.map_eq_some'.mp hs with ⟨v, _, hv2⟩
    rw [← hv2]
    exact Real.sqrt_nonneg _
  simp only [calculate_bollinger_upper, hm, hs] at hu
  simp only [calculate_bollinger_lower, hm, hs] at hl
  cases hu
  cases hl
  have hks : 0 ≤ s * (k : ℝ) := mul_nonneg hs0 (by exact_mod_cast hk)
  refine ⟨rfl, rfl, by linarith, by linarith⟩

/-- C10, witness: on the two-sample constant series the variance is `0`, the
three bands are all defined and equal, and the ordering holds. -/
theorem bollinger_band_witness :
    calculate_bollinger_upper [1, 1] 2 2 1 = some 1 ∧
    calculate_bollinger_middle [1, 1] 2 1 = some 1 ∧
    calculate_bollinger_lower [1, 1] 2 2 1 = some 1 ∧
    ((1 : ℝ) ≤ ((1 : ℚ) : ℝ) ∧ ((1 : ℚ) : ℝ) ≤ (1 : ℝ)) := by
  have hm : calculate_bollinger_middle [1, 1] 2 1 = some 1 := by
    norm_num [calculate_bollinger_middle, calculate_sma, windowSum, List.range_succ]
  have hv : rolling_var [1, 1] 2 1 = some 0 := by
    norm_num [rolling_var, windowSum, List.range_succ]
  have hs : rolling_std [1, 1] 2 1 = some 0 := by
    unfold rolling_std
    rw [hv]
    simp
  have hu : calculate_bollinger_upper [1, 1] 2 2 1 = some 1 := by
    simp only [calculate_bollinger_upper, hm, hs]
    norm_num
  have hl : calculate_bollinger_lower [1, 1] 2 2 1 = some 1 := by
    simp only [calculate_bollinger_lower, hm, hs]
    norm_num
  have h := (bollinger_band_ordering [1, 1] 2 2 1 (by norm_num)).2 1 1 1 0 hu hm hl hs
  exact ⟨hu, hm, hl, h.2.2.1, h.2.2.2⟩

/-! ## Data model: `models/stock.py` and strategy parameters

Optional indicator fields model the Python `Optional[float]` attributes;
a `none` bid/ask models a missing quote field.  Python truthiness of an
`Optional[float]` (`if rsi:`) is false both for `None` and for `0.0`,
which the embeddings below spell out. -/

structure StockQuote where
  bid : Option ℚ
  ask : Option ℚ
  deriving DecidableEq

structure TechnicalIndicators where
  rsi : Option ℚ
  sma_20 : Option ℚ
  bollinger_upper : Option ℚ
  bollinger_middle : Option ℚ
  bollinger_lower : Option ℚ
  deriving DecidableEq

structure SupportResistanceLevel where
  price : ℚ
  deriving DecidableEq

structure StockData where
  symbol : String
  current_quote : Option StockQuote
  technical_indicators : Option TechnicalIndicators
  support_levels : List SupportResistanceLevel
  resistance_levels : List SupportResistanceLevel
  deriving DecidableEq

inductive TradingMode
  | ultraSafe
  | conservative
  | aggressive
  deriving DecidableEq

/-- Strategy parameters held on the `ScalpingStrategy` instance
(`__init__` plus `_update_trading_mode_parameters`). -/
structure StrategyParams where
  supportThreshold : ℚ
  resistanceThreshold : ℚ
  rsiOversold : ℚ
  rsiOverbought : ℚ
  minBuyScore : ℕ
  stopLossPct : ℚ
  takeProfitPct : ℚ
  trailingStopEnabled : Bool
  trailingStopPct : ℚ
  minProfitForTrailing : ℚ
  dynamicExitEnabled : Bool
  deriving DecidableEq

/-- `self.min_buy_score` as set by `_update_trading_mode_parameters`:
4 for ultra-safe, 2 for aggressive, 3 for conservative. -/
def min_buy_score_for (m : TradingMode) : ℕ :=
  match m with
  | .ultraSafe => 4
  | .aggressive => 2
  | .conservative => 3

/-- `_find_nearest_support`: highest-priced support level strictly below the
current price (Python `max(..., key=price)`; the first maximum wins ties). -/
def find_nearest_support (sd : StockData) (currentPrice : ℚ) :
    Option SupportResistanceLevel :=
  match sd.support_levels.filter (fun lv => lv.price < currentPrice) with
  | [] => none
  | x :: xs => some (xs.foldl (fun acc y => if acc.price < y.price then y else acc) x)

/-- `_find_nearest_resistance`: lowest-priced resistance level strictly above
the current price (Python `min(..., key=price)`). -/
def find_nearest_resistance (sd : StockData) (currentPrice : ℚ) :
    Option SupportResistanceLevel :=
  match sd.resistance_levels.filter (fun lv => lv.price > currentPrice) with
  | [] => none
  | x :: xs => some (xs.foldl (fun acc y => if y.price < acc.price then y else acc) x)

/-- `_is_favorable_market_condition`: any one failing condition vetoes entry.
Mirrors the sequence of early `return False` checks; the final fall-through
returns `True`. -/
def is_favorable_market_condition (sd : StockData) : Bool :=
  match sd.technical_indicators with
  | none => true
  | some ti =>
    match sd.current_quote with
    | none => false
    | some q =>
      match q.bid with
      | none => false
      | some currentPrice =>
        let volatilityBad : Bool :=
          match ti.bollinger_upper, ti.bollinger_lower, ti.bollinger_middle with
          | some u, some l, some m =>
            if u ≠ 0 ∧ l ≠ 0 ∧ m ≠ 0 then decide ((u - l) / m > 25 / 100) else false
          | _, _, _ => false
        let rsiBad : Bool :=
          match ti.rsi with
          | some r => if r ≠ 0 then decide (r > 80 ∨ r < 15) else false
          | none => false
        let spreadBad : Bool :=
          match q.ask with
          | some a => decide ((a - currentPrice) / currentPrice > 1 / 100)
          | none => false
        let gapBad : Bool :=
          match ti.sma_20 with
          | some s => if s ≠ 0 then decide (|currentPrice - s| / s > 5 / 100) else false
          | none => false
        !(volatilityBad || rsiBad || spreadBad || gapBad)

/-- One fired entry condition.  The Python code appends a formatted string
per condition; we keep the condition (with the number interpolated into the
string) as a constructor, so the signal reason is the ordered list of fired
conditions. -/
inductive BuyCondition
  | nearSupport (supportPrice : ℚ)
  | rsiOversold (rsi : ℚ)
  | rsiApproachingOversold (rsi : ℚ)
  | nearLowerBollinger (bbLower : ℚ)
  | nearAboveSma20 (sma : ℚ)
  | lowVolatilitySqueeze
  | goodRiskReward (ratio : ℚ)
  deriving DecidableEq

/-- The score appended to `condition_scores` for each fired condition. -/
def conditionScore (c : BuyCondition) : ℕ :=
  match c with
  | .nearSupport _ => 3
  | .rsiOversold _ => 2
  | .rsiApproachingOversold _ => 1
  | .nearLowerBollinger _ => 2
  | .nearAboveSma20 _ => 1
  | .lowVolatilitySqueeze => 1
  | .goodRiskReward _ => 2

/-- `sum(condition_scores)`. -/
def totalScore (cs : List BuyCondition) : ℕ :=
  (cs.map conditionScore).sum

/-- The `buy_conditions` list built by `generate_signals` (conditions 1-6,
in program order).  `currentPrice` is the quote ask. -/
def buyConditions (p : StrategyParams) (sd : StockData) (ti : TechnicalIndicators)
    (currentPrice : ℚ) : List BuyCondition :=
  let ns := find_nearest_support sd currentPrice
  let nr := find_nearest_resistance sd currentPrice
  let c1 : List BuyCondition :=
    match ns with
    | some lv =>
      if lv.price > 0 ∧ currentPrice > 0 ∧
          |currentPrice - lv.price| / currentPrice ≤ p.supportThreshold then
        [.nearSupport lv.price]
      else []
    | none => []
  let c2 : List BuyCondition :=
    match ti.rsi with
    | some r =>
      if r ≠ 0 then
        (if r ≤ p.rsiOversold then [.rsiOversold r]
         else if r ≤ p.rsiOversold + 5 then [.rsiApproachingOversold r]
         else [])
      else []
    | none => []
  let c3 : List BuyCondition :=
    match ti.bollinger_lower with
    | some bl =>
      if bl ≠ 0 ∧ currentPrice ≤ bl * (102 / 100) then [.nearLowerBollinger bl] else []
    | none => []
  let c4 : List BuyCondition :=
    match ti.sma_20 with
    | some s =>
      if s ≠ 0 ∧ currentPrice > s * (98 / 100) then [.nearAboveSma20 s] else []
    | none => []
  let c5 : List BuyCondition :=
    match ti.bollinger_upper, ti.bollinger_lower, ti.bollinger_middle with
    | some u, some l, some m =>
      if u ≠ 0 ∧ l ≠ 0 ∧ m ≠ 0 ∧ (u - l) / m < 1 / 10 then [.lowVolatilitySqueeze] else []
    | _, _, _ => []
  let c6 : List BuyCondition :=
    match nr, ns with
    | some rv, some sv =>
      if rv.price > 0 ∧ sv.price > 0 ∧ currentPrice > 0 ∧
          currentPrice - sv.price > 0 ∧
          (rv.price - currentPrice) / (currentPrice - sv.price) ≥ 2 then
        [.goodRiskReward ((rv.price - currentPrice) / (currentPrice - sv.price))]
      else []
    | _, _ => []
  c1 ++ c2 ++ c3 ++ c4 ++ c5 ++ c6

/-- `generate_signals`: the returned list of `(signal_type, reason)` pairs,
with the reason modelled as the ordered list of fired conditions
(the Python reason string is `"; ".join` of their descriptions).
`activeSymbols` / `pendingSymbols` are the key sets of
`self.active_positions` / `self.pending_orders`. -/
def generate_signals (p : StrategyParams) (activeSymbols pendingSymbols : List String)
    (sd : StockData) : List (String × List BuyCondition) :=
  match sd.current_quote with
  | none => []
  | some q =>
    match q.ask with
    | none => []
    | some currentPrice =>
      if sd.symbol ∈ activeSymbols ∨ sd.symbol ∈ pendingSymbols then []
      else
        match sd.technical_indicators with
        | none => []
        | some ti =>
          if ¬ is_favorable_market_condition sd then []
          else
            let cs := buyConditions p sd ti currentPrice
            if 2 ≤ cs.length ∧ p.minBuyScore ≤ totalScore cs then [("BUY", cs)]
            else []

/-- C3: for a snapshot that reaches the scoring step (valid ask, symbol not
already held or pending, indicators present) and passes the
favorable-condition gate, a BUY signal is emitted iff at least 2 of the six
weighted conditions hold and the summed weight reaches the mode minimum,
and its reason lists exactly the conditions that held; the mode minimums
are ultra_safe = 4, conservative = 3, aggressive = 2. -/
theorem buy_signal_iff_score (p : StrategyParams) (act pend : List String)
    (sd : StockData) (q : StockQuote) (ti : TechnicalIndicators) (a : ℚ)
    (hq : sd.current_quote = some q) (ha : q.ask = some a)
    (hact : sd.symbol ∉ act) (hpend : sd.symbol ∉ pend)
    (hti : sd.technical_indicators = some ti)
    (hfav : is_favorable_market_condition sd = true) :
    (generate_signals p act pend sd =
      if 2 ≤ (buyConditions p sd ti a).length ∧
          p.minBuyScore ≤ totalScore (buyConditions p sd ti a) then
        [("BUY", buyConditions p sd ti a)]
      else []) ∧
    min_buy_score_for .ultraSafe = 4 ∧ min_buy_score_for .conservative = 3 ∧
    min_buy_score_for .aggressive = 2 := by
  refine ⟨?_, rfl, rfl, rfl⟩
  simp only [generate_signals, hq, ha, hti, hfav]
  simp [hact, hpend]

/-- C9: a snapshot whose symbol already has an active position or a pending
order never produces a signal. -/
theorem no_signal_when_active_or_pending (p : StrategyParams)
    (act pend : List String) (sd : StockData)
    (h : sd.symbol ∈ act ∨ sd.symbol ∈ pend) :
    generate_signals p act pend sd = [] := by
  unfold generate_signals
  cases hq : sd.current_quote with
  | none => rfl
  | some q =>
    cases ha : q.ask with
    | none => simp [ha]
    | some a => simp [ha, h]

/-- Strategy parameters in conservative mode with default settings:
`get_mode_params` gives stop-loss 1%, take-profit 2%, RSI 30/70;
`_update_trading_mode_parameters` sets support threshold 0.02 and
resistance threshold 0.015 (settings defaults), trailing stop 1%,
min-profit-for-trailing 0.5% and `min_buy_score = 3`; `__init__` enables
trailing and dynamic exits. -/
def conservativeParams : StrategyParams :=
  { supportThreshold := 2 / 100
    resistanceThreshold := 15 / 1000
    rsiOversold := 30
    rsiOverbought := 70
    minBuyScore := 3
    stopLossPct := 1 / 100
    takeProfitPct := 2 / 100
    trailingStopEnabled := true
    trailingStopPct := 1 / 100
    minProfitForTrailing := 5 / 1000
    dynamicExitEnabled := true }

/-- Snapshot for the C3 scenario: RSI 28, a support level at 100 with the
ask 100.5 within the support threshold, all other indicators absent. -/
def sdScenarioC3 : StockData :=
  { symbol := "XYZ"
    current_quote := some { bid := some 100, ask := some (201 / 2) }
    technical_indicators :=
      some { rsi := some 28, sma_20 := none, bollinger_upper := none,
             bollinger_middle := none, bollinger_lower := none }
    support_levels := [{ price := 100 }]
    resistance_levels := [] }

/-- C3, witness: the scenario snapshot (RSI 28 oversold, price near support,
2 conditions, score 5, conservative minimum 3) emits a BUY signal whose
reason names both conditions. -/
theorem buy_signal_witness :
    generate_signals conservativeParams [] [] sdScenarioC3 =
      [("BUY", [BuyCondition.nearSupport 100, BuyCondition.rsiOversold 28])] := by
  have h := (buy_signal_iff_score conservativeParams [] [] sdScenarioC3
      { bid := some 100, ask := some (201 / 2) }
      { rsi := some 28, sma_20 := none, bollinger_upper := none,
        bollinger_middle := none, bollinger_lower := none }
      (201 / 2) rfl rfl (by simp) (by simp) rfl
      (by norm_num [is_favorable_market_condition, sdScenarioC3])).1
  rw [h]
  have habs : |(1 : ℚ) / 2| / (201 / 2) ≤ 1 / 50 := by
    rw [abs_of_nonneg (by norm_num)]
    norm_num
  norm_num [buyConditions, find_nearest_support, find_nearest_resistance,
    totalScore, conditionScore, conservativeParams, sdScenarioC3, habs]

/-- C9, witness: a snapshot whose symbol has an active position produces no
signal. -/
theorem no_signal_witness :
    generate_signals conservativeParams ["XYZ"] [] sdScenarioC3 = [] :=
  no_signal_when_active_or_pending conservativeParams ["XYZ"] [] sdScenarioC3
    (Or.inl (by simp [sdScenarioC3]))

/-! ## OrderLifecycleManager: pending orders and active positions

`active_positions : Dict[str, Trade]` and `pending_orders : Dict[str, str]`
(symbol to broker order id).  The side of a pending order lives at the
broker; the `PendingOrder` record below carries it alongside the id so that
the fill events of `update_positions` (which branch on `order.side`) can be
stated.  Steps mirror `_execute_buy_order`, `_execute_sell_order`,
`_handle_order_filled` + the `del pending_orders[symbol]` that follows it,
and `_handle_order_cancelled`. -/

inductive TradeType
  | buy
  | sell
  deriving DecidableEq

inductive TradeStatus
  | pending
  | filled
  | cancelled
  | rejected
  deriving DecidableEq

structure Trade where
  symbol : String
  trade_type : TradeType
  quantity : ℚ
  price : ℚ
  status : TradeStatus
  deriving DecidableEq

structure PendingOrder where
  orderId : String
  side : TradeType
  deriving DecidableEq

structure LifecycleState where
  active : List (String × Trade)
  pending : List (String × PendingOrder)
  deriving DecidableEq

/-- One transition of the lifecycle manager.

* `placeBuy`: a BUY signal is executed.  Signals are only generated for a
  symbol with no active position and no pending order
  (`generate_signals`, the skip at the top), hence the two guards.
* `placeSell`: `_execute_sell_order` requires an active position and then
  records the sell order id in `pending_orders` — it does **not** remove
  the active position.
* `fillBuy` / `fillSell`: `update_positions` sees the order filled, calls
  `_handle_order_filled` (insert/delete the active position) and deletes
  the pending entry.
* `cancel`: cancelled/rejected/expired orders are dropped from
  `pending_orders` with no other side effect. -/
inductive LStep : LifecycleState → LifecycleState → Prop
  | placeBuy (st : LifecycleState) (s oid : String) (qty price : ℚ)
      (hA : lookupA st.active s = none) (hP : lookupA st.pending s = none) :
      LStep st ⟨st.active, insertA s ⟨oid, .buy⟩ st.pending⟩
  | placeSell (st : LifecycleState) (s oid : String) (tr : Trade)
      (hA : lookupA st.active s = some tr) :
      LStep st ⟨st.active, insertA s ⟨oid, .sell⟩ st.pending⟩
  | fillBuy (st : LifecycleState) (s : String) (po : PendingOrder) (qty price : ℚ)
      (h : lookupA st.pending s = some po) (hside : po.side = .buy) :
      LStep st ⟨insertA s ⟨s, .buy, qty, price, .filled⟩ st.active, eraseA s st.pending⟩
  | fillSell (st : LifecycleState) (s : String) (po : PendingOrder)
      (h : lookupA st.pending s = some po) (hside : po.side = .sell) :
      LStep st ⟨eraseA s st.active, eraseA s st.pending⟩
  | cancel (st : LifecycleState) (s : String) (po : PendingOrder)
      (h : lookupA st.pending s = some po) :
      LStep st ⟨st.active, eraseA s st.pending⟩

/-- States reachable from the empty startup state. -/
inductive LReachable : LifecycleState → Prop
  | init : LReachable ⟨[], []⟩
  | step {st st' : LifecycleState} : LReachable st → LStep st st' → LReachable st'

/-- C2 (amended): in every reachable state, a pending **buy** order and an
active position never coexist on a symbol — equivalently, whenever a symbol
has both a pending order and an active position, the pending order is the
sell that is closing that position. -/
theorem no_pending_buy_with_active (st : LifecycleState) (h : LReachable st) :
    ∀ (s : String) (po : PendingOrder), lookupA st.pending s = some po →
      po.side = .buy → lookupA st.active s = none := by
  induction h with
  | init => intro s po hp _; exact Option.noConfusion hp
  | step hr hstep ih =>
    intro s po hp hside
    cases hstep with
    | placeBuy x oid qty price hA hP =>
      by_cases hx : s = x
      · subst hx; exact hA
      · exact ih s po (by rwa [lookupA_insertA_ne x s _ _ hx] at hp) hside
    | placeSell x oid tr hA =>
      by_cases hx : s = x
      · subst hx
        rw [lookupA_insertA_self] at hp
        cases hp
        exact absurd hside (by simp)
      · exact ih s po (by rwa [lookupA_insertA_ne x s _ _ hx] at hp) hside
    | fillBuy x po2 qty price h2 hside2 =>
      by_cases hx : s = x
      · subst hx
        rw [lookupA_eraseA_self] at hp
        exact Option.noConfusion hp
      · rw [lookupA_insertA_ne x s _ _ hx]
        exact ih s po (by rwa [lookupA_eraseA_ne x s _ hx] at hp) hside
    | fillSell x po2 h2 hside2 =>
      by_cases hx : s = x
      · subst hx
        rw [lookupA_eraseA_self] at hp
        exact Option.noConfusion hp
      · rw [lookupA_eraseA_ne x s _ hx]
        exact ih s po (by rwa [lookupA_eraseA_ne x s _ hx] at hp) hside
    | cancel x po2 h2 =>
      by_cases hx : s = x
      · subst hx
        rw [lookupA_eraseA_self] at hp
        exact Option.noConfusion hp
      · exact ih s po (by rwa [lookupA_eraseA_ne x s _ hx] at hp) hside

/-- The state reached by: place a buy for `"A"`, fill it, then place the
closing sell.  The active position is still present while the sell order is
pending. -/
def sellPendingState : LifecycleState :=
  ⟨[("A", ⟨"A", .buy, 1, 100, .filled⟩)], [("A", ⟨"o2", .sell⟩)]⟩

/-- C2, counterexample to the claim as stated: a reachable state in which
the symbol `"A"` simultaneously has an active position **and** a pending
order — `_execute_sell_order` records the sell in `pending_orders` while
the position stays in `active_positions` until the sell fills. -/
theorem pending_and_active_coexist :
    LReachable sellPendingState ∧
    (lookupA sellPendingState.active "A").isSome = true ∧
    (lookupA sellPendingState.pending "A").isSome = true := by
  refine ⟨?_, by simp [sellPendingState, lookupA], by simp [sellPendingState, lookupA]⟩
  have h1 : LReachable ⟨[], [("A", ⟨"o1", .buy⟩)]⟩ := by
    have := LStep.placeBuy ⟨[], []⟩ "A" "o1" 1 100 rfl rfl
    exact LReachable.step LReachable.init (by simpa [insertA, eraseA] using this)
  have h2 : LReachable ⟨[("A", ⟨"A", .buy, 1, 100, .filled⟩)], []⟩ := by
    have := LStep.fillBuy ⟨[], [("A", ⟨"o1", .buy⟩)]⟩ "A" ⟨"o1", .buy⟩ 1 100
      (by simp [lookupA]) rfl
    exact LReachable.step h1 (by simpa [insertA, eraseA] using this)
  have h3 := LStep.placeSell ⟨[("A", ⟨"A", .buy, 1, 100, .filled⟩)], []⟩ "A" "o2"
    ⟨"A", .buy, 1, 100, .filled⟩ (by simp [lookupA])
  exact LReachable.step h2 (by simpa [sellPendingState, insertA, eraseA] using h3)

/-- C2, witness for the amended invariant: in the concrete reachable state
with a pending buy for `"A"`, the symbol has no active position. -/
theorem no_pending_buy_with_active_witness :
    lookupA (LifecycleState.active ⟨[], [("A", ⟨"o1", .buy⟩)]⟩) "A" = none := by
  have h1 : LReachable ⟨[], [("A", ⟨"o1", .buy⟩)]⟩ := by
    have := LStep.placeBuy ⟨[], []⟩ "A" "o1" 1 100 rfl rfl
    exact LReachable.step LReachable.init (by simpa [insertA, eraseA] using this)
  exact no_pending_buy_with_active _ h1 "A" ⟨"o1", .buy⟩ (by simp [lookupA]) rfl

/-! ## RiskSizer, fixed-capital mode (`_execute_buy_order`, fixed branch)

State for fixed-capital tracking: the value (`quantity × entry price`) of
each active filled buy position, and the notional of each submitted,
not-yet-filled buy order.  `_calculate_allocated_capital` sums only the
**active** (filled) positions; a pending notional order contributes
nothing until it fills. -/

structure CapState where
  active : List (String × ℚ)
  pendingBuy : List (String × ℚ)
  deriving DecidableEq

/-- `_calculate_allocated_capital`: `Σ quantity × entry price` over active
filled buy positions (each stored value is already that product). -/
def allocatedCapital (st : CapState) : ℚ :=
  (st.active.map (fun kv => kv.2)).sum

/-- Total notional of submitted but unfilled buy orders. -/
def pendingCapital (st : CapState) : ℚ :=
  (st.pendingBuy.map (fun kv => kv.2)).sum

/-- The fixed-capital acceptance check of `_execute_buy_order`
(lines 704-732): with total capital `C`, currently allocated capital
`allocated` and the configured fixed trade amount `amt`, the order is
rejected if `amt` exceeds `remaining = C - allocated`, and rejected if
`amt < 1` (this covers both "fully allocated" and "below minimum trade"
error paths); otherwise the notional `amt` is submitted. -/
def fixedCapitalCheck (C allocated amt : ℚ) : Bool :=
  if amt > C - allocated then false
  else if amt < 1 then false
  else true

/-- One transition in fixed-capital mode with ceiling `C` and fixed trade
amount `amt`.

* `acceptBuy`: a BUY signal for a symbol with no position and no pending
  order passes the fixed-capital check and a notional order of `amt` is
  submitted.
* `fillBuy`: the notional order fills; a notional market order fills for
  its full dollar amount, so the new position's `quantity × entry price`
  equals the submitted notional.
* `cancelBuy` / `sellClose`: the pending order is cancelled, resp. a sell
  fill removes the position. -/
inductive CapStep (C amt : ℚ) : CapState → CapState → Prop
  | acceptBuy (st : CapState) (s : String)
      (hA : lookupA st.active s = none) (hP : lookupA st.pendingBuy s = none)
      (hok : fixedCapitalCheck C (allocatedCapital st) amt = true) :
      CapStep C amt st ⟨st.active, insertA s amt st.pendingBuy⟩
  | fillBuy (st : CapState) (s : String) (a : ℚ)
      (h : lookupA st.pendingBuy s = some a) :
      CapStep C amt st ⟨insertA s a st.active, eraseA s st.pendingBuy⟩
  | cancelBuy (st : CapState) (s : String) :
      CapStep C amt st ⟨st.active, eraseA s st.pendingBuy⟩
  | sellClose (st : CapState) (s : String) :
      CapStep C amt st ⟨eraseA s st.active, st.pendingBuy⟩

/-- Reachable states of the fixed-capital machine. -/
inductive CapReachable (C amt : ℚ) : CapState → Prop
  | init : CapReachable C amt ⟨[], []⟩
  | step {st st' : CapState} :
      CapReachable C amt st → CapStep C amt st st' → CapReachable C amt st'

/-- The serialized machine: identical, except that a new buy may only be
accepted while **no** buy order is pending (each accepted buy fills or is
cancelled before the next acceptance). -/
inductive CapStepSeq (C amt : ℚ) : CapState → CapState → Prop
  | acceptBuy (st : CapState) (s : String)
      (hA : lookupA st.active s = none) (hEmpty : st.pendingBuy = [])
      (hok : fixedCapitalCheck C (allocatedCapital st) amt = true) :
      CapStepSeq C amt st ⟨st.active, insertA s amt st.pendingBuy⟩
  | fillBuy (st : CapState) (s : String) (a : ℚ)
      (h : lookupA st.pendingBuy s = some a) :
      CapStepSeq C amt st ⟨insertA s a st.active, eraseA s st.pendingBuy⟩
  | cancelBuy (st : CapState) (s : String) :
      CapStepSeq C amt st ⟨st.active, eraseA s st.pendingBuy⟩
  | sellClose (st : CapState) (s : String) :
      CapStepSeq C amt st ⟨eraseA s st.active, st.pendingBuy⟩

/-- Reachable states of the serialized fixed-capital machine. -/
inductive CapReachableSeq (C amt : ℚ) : CapState → Prop
  | init : CapReachableSeq C amt ⟨[], []⟩
  | step {st st' : CapState} :
      CapReachableSeq C amt st → CapStepSeq C amt st st' → CapReachableSeq C amt st'

theorem sumVals_filter_le {l : List (String × ℚ)}
    (h : ∀ kv ∈ l, 0 ≤ kv.2) (p : String × ℚ → Bool) :
    ((l.filter p).map (fun kv => kv.2)).sum ≤ (l.map (fun kv => kv.2)).sum := by
  induction l with
  | nil => simp
  | cons kv l ih =>
    have h0 : 0 ≤ kv.2 := h kv (by simp)
    have ih2 := ih (fun x hx => h x (List.mem_cons_of_mem kv hx))
    by_cases hp : p kv
    · simp only [List.filter_cons, hp, if_true, List.map_cons, List.sum_cons]
      linarith
    · simp only [List.filter_cons, hp, Bool.false_eq_true, if_false, List.map_cons,
        List.sum_cons]
      linarith

theorem sumVals_eraseA_le (s : String) (l : List (String × ℚ))
    (h : ∀ kv ∈ l, 0 ≤ kv.2) :
    ((eraseA s l).map (fun kv => kv.2)).sum ≤ (l.map (fun kv => kv.2)).sum := by
  unfold eraseA
  exact sumVals_filter_le h _

/-- Inductive invariant of the serialized fixed-capital machine: position
values are nonnegative, at most one buy is pending (of value at least 1),
and allocated plus pending capital stays within the ceiling. -/
theorem cap_invariant (C amt : ℚ) (hC : 0 ≤ C) (st : CapState)
    (h : CapReachableSeq C amt st) :
    (∀ kv ∈ st.active, 0 ≤ kv.2) ∧
    (st.pendingBuy = [] ∨ ∃ s a, st.pendingBuy = [(s, a)] ∧ 1 ≤ a) ∧
    allocatedCapital st + pendingCapital st ≤ C := by
  induction h with
  | init =>
    refine ⟨by simp, Or.inl rfl, ?_⟩
    simpa [allocatedCapital, pendingCapital] using hC
  | step hr hstep ih =>
    obtain ⟨hnn, hsh, hsum⟩ := ih
    rename_i st0 st1
    cases hstep with
    | acceptBuy s hA hEmpty hok =>
      have hok2 : ¬ amt > C - allocatedCapital st0 ∧ ¬ amt < 1 := by
        by_cases h1 : amt > C - allocatedCapital st0
        · simp [fixedCapitalCheck, h1] at hok
        · by_cases h2 : amt < 1
          · simp [fixedCapitalCheck, h1, h2] at hok
          · exact ⟨h1, h2⟩
      refine ⟨hnn, Or.inr ⟨s, amt, by simp [insertA, eraseA, hEmpty], by linarith [hok2.2]⟩, ?_⟩
      simp only [allocatedCapital, pendingCapital, insertA, hEmpty, eraseA,
        List.filter_nil, List.map_cons, List.map_nil, List.sum_cons, List.sum_nil]
      have := hok2.1
      simp only [allocatedCapital] at this
      linarith
    | fillBuy s a hl =>
      rcases hsh with hsh | ⟨t, b, hsh, hb⟩
      · rw [hsh] at hl
        exact Option.noConfusion hl
      · rw [hsh] at hl
        by_cases hts : t = s
        · subst hts
          simp only [lookupA, if_pos rfl] at hl
          cases hl
          have herase : eraseA t ([(t, a)] : List (String × ℚ)) = [] := by
            simp [eraseA]
          have hact := sumVals_eraseA_le t st0.active hnn
          refine ⟨?_, Or.inl (by simp [hsh, herase]), ?_⟩
          · intro kv hkv
            rcases List.mem_cons.mp hkv with hkv | hkv
            · subst hkv; linarith
            · exact hnn kv (List.mem_of_mem_filter hkv)
          · simp only [pendingCapital, hsh, List.map_cons, List.map_nil, List.sum_cons,
              List.sum_nil] at hsum
            simp only [allocatedCapital, pendingCapital, insertA, hsh, herase,
              List.map_cons, List.map_nil, List.sum_cons, List.sum_nil]
            simp only [allocatedCapital] at hsum hact
            linarith
        · simp only [lookupA, if_neg hts] at hl
          exact Option.noConfusion hl
    | cancelBuy s =>
      have hpnn : ∀ kv ∈ st0.pendingBuy, 0 ≤ kv.2 := by
        rcases hsh with hsh | ⟨t, b, hsh, hb⟩
        · simp [hsh]
        · intro kv hkv
          rw [hsh] at hkv
          have := List.mem_singleton.mp hkv
          subst this
          simpa using le_trans zero_le_one hb
      have hpend := sumVals_eraseA_le s st0.pendingBuy hpnn
      refine ⟨hnn, ?_, ?_⟩
      · rcases hsh with hsh | ⟨t, b, hsh, hb⟩
        · exact Or.inl (by simp [hsh, eraseA])
        · by_cases hts : t = s
          · subst hts
            exact Or.inl (by simp [hsh, eraseA])
          · exact Or.inr ⟨t, b, by simp [hsh, eraseA, hts], hb⟩
      · simp only [allocatedCapital, pendingCapital] at hsum hpend ⊢
        linarith
    | sellClose s =>
      have hact := sumVals_eraseA_le s st0.active hnn
      refine ⟨fun kv hkv => hnn kv (List.mem_of_mem_filter hkv), hsh, ?_⟩
      simp only [allocatedCapital, pendingCapital] at hsum hact ⊢
      linarith

/-- C1 (amended): in fixed-capital mode with ceiling `C`, provided each
accepted buy order fills or is cancelled before the next buy is accepted
(at most one buy pending at a time — the serialized machine), the total
allocated capital `Σ quantity × entry price` over active filled buy
positions never exceeds `C`; and a requested fixed trade amount is rejected
whenever it exceeds `remaining = C - allocated` or `remaining` is below $1.
(Without serialization the ceiling can be breached: see the
counterexample, where two accepted-then-filled buys allocate `120 > C =
100` because pending notionals are not counted as allocated.) -/
theorem fixed_capital_never_exceeded (C amt : ℚ) (hC : 0 ≤ C) :
    (∀ st : CapState, CapReachableSeq C amt st → allocatedCapital st ≤ C) ∧
    (∀ allocated amt2 : ℚ, amt2 > C - allocated ∨ C - allocated < 1 →
      fixedCapitalCheck C allocated amt2 = false) := by
  constructor
  · intro st h
    obtain ⟨hnn, hsh, hsum⟩ := cap_invariant C amt hC st h
    have hp0 : 0 ≤ pendingCapital st := by
      rcases hsh with hsh | ⟨t, b, hsh, hb⟩
      · simp [pendingCapital, hsh]
      · simp only [pendingCapital, hsh, List.map_cons, List.map_nil, List.sum_cons,
          List.sum_nil]
        linarith
    linarith
  · intro allocated amt2 hrej
    unfold fixedCapitalCheck
    by_cases h1 : amt2 > C - allocated
    · simp [h1]
    · rcases hrej with hrej | hrej
      · exact absurd hrej h1
      · have h2 : amt2 < 1 := by linarith [not_lt.mp h1]
        simp [h1, h2]

/-- The state reached (in the unrestricted machine, `C = 100`,
`amt = 60`) by accepting buys for `"A"` and `"B"` while neither is filled,
then filling both. -/
def overAllocatedState : CapState := ⟨[("B", 60), ("A", 60)], []⟩

/-- C1, counterexample to the claim as stated: with ceiling `C = 100` and
fixed amount `60`, accept a buy for `"A"` (remaining `100`), accept a buy
for `"B"` (allocated still `0` because `"A"` has not filled, so the check
passes again), then fill both: the allocated capital is `120 > 100`. -/
theorem fixed_capital_exceeded_counterexample :
    CapReachable 100 60 overAllocatedState ∧
    allocatedCapital overAllocatedState > 100 := by
  constructor
  · have h1 : CapReachable 100 60 ⟨[], [("A", 60)]⟩ := by
      have := @CapStep.acceptBuy 100 60 ⟨[], []⟩ "A" rfl rfl
        (by norm_num [fixedCapitalCheck, allocatedCapital])
      exact CapReachable.step CapReachable.init (by simpa [insertA, eraseA] using this)
    have h2 : CapReachable 100 60 ⟨[], [("B", 60), ("A", 60)]⟩ := by
      have := @CapStep.acceptBuy 100 60 ⟨[], [("A", 60)]⟩ "B"
        rfl (by simp [lookupA])
        (by norm_num [fixedCapitalCheck, allocatedCapital])
      exact CapReachable.step h1 (by simpa [insertA, eraseA] using this)
    have h3 : CapReachable 100 60 ⟨[("A", 60)], [("B", 60)]⟩ := by
      have := @CapStep.fillBuy 100 60 ⟨[], [("B", 60), ("A", 60)]⟩ "A" 60
        (by simp [lookupA])
      exact CapReachable.step h2 (by simpa [insertA, eraseA] using this)
    have h4 := @CapStep.fillBuy 100 60 ⟨[("A", 60)], [("B", 60)]⟩ "B" 60
      (by simp [lookupA])
    exact CapReachable.step h3
      (by simpa [overAllocatedState, insertA, eraseA] using h4)
  · norm_num [allocatedCapital, overAllocatedState]

/-- C1, witness: the serialized bound applied at `C = 100`, `amt = 60` to
the state reached by one accepted-and-filled buy, plus the concrete
rejection from the spec scenario (`C = 100`, allocated `95`, requested
`10` exceeds the remaining `5`). -/
theorem fixed_capital_witness :
    allocatedCapital ⟨[("A", 60)], []⟩ ≤ 100 ∧
    fixedCapitalCheck 100 95 10 = false := by
  have h := fixed_capital_never_exceeded 100 60 (by norm_num)
  constructor
  · apply h.1
    have h1 : CapReachableSeq 100 60 ⟨[], [("A", 60)]⟩ := by
      have := @CapStepSeq.acceptBuy 100 60 ⟨[], []⟩ "A" rfl rfl
        (by norm_num [fixedCapitalCheck, allocatedCapital])
      exact CapReachableSeq.step CapReachableSeq.init (by simpa [insertA, eraseA] using this)
    have h2 := @CapStepSeq.fillBuy 100 60 ⟨[], [("A", 60)]⟩ "A" 60
      (by simp [lookupA])
    exact CapReachableSeq.step h1 (by simpa [insertA, eraseA] using h2)
  · exact h.2 95 10 (by norm_num)

/-! ## Exit rules: `check_exit_conditions` and its helpers -/

/-- The reason of a SELL exit signal, one constructor per `return` site of
`check_exit_conditions`, carrying the numbers interpolated into the
Python reason string. -/
inductive ExitReason
  | trailingStop (stopPrice high : ℚ)
  | stopLoss (pnlPct : ℚ)
  | dynamicTakeProfit (pnlPct target : ℚ)
  | takeProfit (pnlPct : ℚ)
  | nearResistanceWeakMomentum (resistancePrice : ℚ)
  | rsiOverbought (rsi threshold : ℚ)
  | nearUpperBollinger (bbUpper : ℚ)
  deriving DecidableEq

/-- `(current_price - entry_price) / entry_price`, or `0.0` when the entry
price is missing/zero. -/
def pnlPct (entryPrice currentPrice : ℚ) : ℚ :=
  if entryPrice ≠ 0 then (currentPrice - entryPrice) / entryPrice else 0

/-- `_calculate_dynamic_take_profit`: base take-profit scaled by RSI
momentum (×1.2 above 60, ×0.8 below 40) and Bollinger position (×1.15 when
the bid sits in the upper 30% of the band), clamped to `[1%, 5%]`.
The `currentPnlPct` argument is accepted and ignored, as in the source. -/
def calculate_dynamic_take_profit (p : StrategyParams) (sd : StockData)
    (_currentPnlPct : ℚ) : ℚ :=
  let base := p.takeProfitPct
  let base1 :=
    match sd.technical_indicators with
    | some ti =>
      match ti.rsi with
      | some r =>
        if r ≠ 0 then
          (if r > 60 then base * (12 / 10) else if r < 40 then base * (8 / 10) else base)
        else base
      | none => base
    | none => base
  let base2 :=
    match sd.technical_indicators, sd.current_quote with
    | some ti, some q =>
      match ti.bollinger_upper, ti.bollinger_lower, q.bid with
      | some u, some l, some cp =>
        if u ≠ 0 ∧ l ≠ 0 then
          (if (cp - l) / (u - l) > 7 / 10 then base1 * (115 / 100) else base1)
        else base1
      | _, _, _ => base1
    | _, _ => base1
  max (1 / 100) (min base2 (5 / 100))

/-- `_is_momentum_weakening`: RSI above 70, or RSI above 65 with the bid
within 2% of the upper Bollinger band. -/
def is_momentum_weakening (sd : StockData) : Bool :=
  match sd.technical_indicators with
  | none => false
  | some ti =>
    match ti.rsi with
    | none => false
    | some r =>
      if r ≠ 0 ∧ r > 70 then true
      else
        match ti.bollinger_upper, sd.current_quote with
        | some u, some q =>
          match q.bid with
          | some cp => decide (r ≠ 0 ∧ r > 65 ∧ u ≠ 0 ∧ cp ≥ u * (98 / 100))
          | none => false
        | _, _ => false

/-- `check_exit_conditions` for an active position, as a pure function of
the strategy parameters, the position entry price, the previously tracked
highest price for the symbol, and the freshly analyzed snapshot.  Returns
the exit decision (checked in program order, first match wins) and the
updated highest-price entry. -/
def check_exit_conditions (p : StrategyParams) (entryPrice : ℚ)
    (prevHigh : Option ℚ) (sd : StockData) : Option ExitReason × Option ℚ :=
  match sd.current_quote with
  | none => (none, prevHigh)
  | some q =>
    match q.bid with
    | none => (none, prevHigh)
    | some cp =>
      let pnl := pnlPct entryPrice cp
      let high := match prevHigh with | none => cp | some h => max h cp
      let stopDecision : Option ExitReason :=
        if p.trailingStopEnabled = true ∧ pnl ≥ p.minProfitForTrailing then
          (if cp ≤ high * (1 - p.trailingStopPct) then
            some (.trailingStop (high * (1 - p.trailingStopPct)) high)
          else none)
        else
          (if pnl ≤ -p.stopLossPct then some (.stopLoss pnl) else none)
      match stopDecision with
      | some r => (some r, some high)
      | none =>
        let tpDecision : Option ExitReason :=
          if p.dynamicExitEnabled = true then
            (if pnl ≥ calculate_dynamic_take_profit p sd pnl then
              some (.dynamicTakeProfit pnl (calculate_dynamic_take_profit p sd pnl))
            else none)
          else
            (if pnl ≥ p.takeProfitPct then some (.takeProfit pnl) else none)
        match tpDecision with
        | some r => (some r, some high)
        | none =>
          let resDecision : Option ExitReason :=
            match find_nearest_resistance sd cp with
            | some lv =>
              if lv.price > 0 ∧ cp > 0 ∧ |cp - lv.price| / cp ≤ p.resistanceThreshold ∧
                  is_momentum_weakening sd = true then
                some (.nearResistanceWeakMomentum lv.price)
              else none
            | none => none
          match resDecision with
          | some r => (some r, some high)
          | none =>
            match sd.technical_indicators with
            | none => (none, some high)
            | some ti =>
              let rsiDecision : Option ExitReason :=
                match ti.rsi with
                | some r =>
                  if r ≠ 0 then
                    (if r ≥ (if pnl > 1 / 100 then p.rsiOverbought - 5 else p.rsiOverbought)
                     then some (.rsiOverbought r
                        (if pnl > 1 / 100 then p.rsiOverbought - 5 else p.rsiOverbought))
                     else none)
                  else none
                | none => none
              match rsiDecision with
              | some r => (some r, some high)
              | none =>
                match ti.bollinger_upper with
                | some u =>
                  if u ≠ 0 ∧ cp ≥ u * (99 / 100) then
                    (some (.nearUpperBollinger u), some high)
                  else (none, some high)
                | none => (none, some high)

/-- Snapshot for the C4 counterexample: bid 100.40, no indicators, no
resistance levels. -/
def sdScenarioC4 : StockData :=
  { symbol := "XYZ"
    current_quote := some { bid := some (502 / 5), ask := some 101 }
    technical_indicators := none
    support_levels := []
    resistance_levels := [] }

/-- C4, counterexample to the claim as stated: position entry $100, highest
seen price $103, trailing stop 1%, minProfitForTrailing 0.5%; at current
price $100.40 ≤ $101.97 the claimed trailing exit does **not** trigger,
because the current unrealized gain (0.4%) is below
`min_profit_for_trailing`, so the code takes the hard-stop branch (and no
other exit rule fires). -/
theorem trailing_stop_counterexample :
    (check_exit_conditions conservativeParams 100 (some 103) sdScenarioC4).1 = none ∧
    (502 / 5 : ℚ) ≤ 10197 / 100 := by
  constructor
  · norm_num [check_exit_conditions, sdScenarioC4, pnlPct, conservativeParams,
      calculate_dynamic_take_profit, find_nearest_resistance, is_momentum_weakening]
  · norm_num

/-- C4 (amended): with entry $100, highest seen $103, trailing stop 1% and
minProfitForTrailing 0.5% (conservative parameters), exit checking uses the
trailing stop at `103 × (1 − 0.01) = $101.97` whenever the current
unrealized gain still meets `min_profit_for_trailing` — i.e. the trailing
exit triggers exactly for current prices in `[$100.50, $101.97]`, for any
snapshot; below $100.50 the code falls back to the hard stop-loss. -/
theorem trailing_stop_window (sd : StockData) (q : StockQuote) (cp : ℚ)
    (hq : sd.current_quote = some q) (hbid : q.bid = some cp)
    (h1 : 201 / 2 ≤ cp) (h2 : cp ≤ 10197 / 100) :
    (check_exit_conditions conservativeParams 100 (some 103) sd).1 =
      some (.trailingStop (10197 / 100) 103) := by
  have hpnl : pnlPct 100 cp ≥ conservativeParams.minProfitForTrailing := by
    unfold pnlPct conservativeParams
    rw [if_pos (by norm_num)]
    simp only
    rw [ge_iff_le, div_le_div_iff₀ (by norm_num) (by norm_num)]
    · linarith
  have hmax : max (103 : ℚ) cp = 103 := max_eq_left (by linarith)
  simp only [check_exit_conditions, hq, hbid, hmax]
  rw [if_pos ⟨rfl, hpnl⟩]
  rw [if_pos (by norm_num [conservativeParams]; linarith)]
  norm_num [conservativeParams]

/-- Snapshot with bid $101 for the C4 witness. -/
def sdScenarioC4wit : StockData :=
  { symbol := "XYZ"
    current_quote := some { bid := some 101, ask := some 101 }
    technical_indicators := none
    support_levels := []
    resistance_levels := [] }

/-- C4, witness: at current price $101 (gain 1% ≥ 0.5%) the trailing exit
at $101.97 triggers. -/
theorem trailing_stop_witness :
    (check_exit_conditions conservativeParams 100 (some 103) sdScenarioC4wit).1 =
      some (.trailingStop (10197 / 100) 103) :=
  trailing_stop_window sdScenarioC4wit { bid := some 101, ask := some 101 } 101
    rfl rfl (by norm_num) (by norm_num)

/-! ## ResilienceGuard: `error_handler.py`

`circuit_breaker(failure_threshold, timeout, ...)` keeps per-decorated-
function closure state `(failure_count, last_failure_time, circuit_open)`;
`retry_on_error(max_retries, delay, backoff_factor, ...)` loops over
`range(max_retries + 1)` attempts. -/

structure CBState where
  failureCount : ℕ
  lastFailureTime : Option ℚ
  circuitOpen : Bool
  deriving DecidableEq

/-- The outcome of one call through the circuit breaker wrapper. -/
inductive CBOutcome
  | circuitOpenError
  | succeeded
  | raisedError
  deriving DecidableEq

/-- One call through the `circuit_breaker` wrapper at time `now`, where the
wrapped operation would succeed iff `opSucceeds`.  Returns the new closure
state, the outcome, and whether the wrapped operation was invoked.
Mirrors the `wrapper` body: first the open circuit is closed if more than
`timeout` has elapsed since the last failure; an open circuit then fails
fast without invoking; a success resets the failure count; a failure bumps
it, stamps the failure time, and opens the circuit at the threshold. -/
def circuit_breaker_call (threshold : ℕ) (timeout : ℚ) (st : CBState) (now : ℚ)
    (opSucceeds : Bool) : CBState × CBOutcome × Bool :=
  let st1 :=
    match st.circuitOpen, st.lastFailureTime with
    | true, some t =>
      if now - t > timeout then { failureCount := 0, lastFailureTime := some t,
                                  circuitOpen := false }
      else st
    | _, _ => st
  if st1.circuitOpen then (st1, .circuitOpenError, false)
  else if opSucceeds then
    ({ st1 with failureCount := 0 }, .succeeded, true)
  else
    ({ failureCount := st1.failureCount + 1, lastFailureTime := some now,
       circuitOpen := decide (threshold ≤ st1.failureCount + 1) || st1.circuitOpen },
     .raisedError, true)

/-- A sequence of consecutive failing calls at the given times. -/
def run_failures (threshold : ℕ) (timeout : ℚ) (st : CBState) (ts : List ℚ) : CBState :=
  ts.foldl (fun s t => (circuit_breaker_call threshold timeout s t false).1) st

theorem run_failures_spec (threshold : ℕ) (timeout : ℚ) :
    ∀ (ts : List ℚ) (st : CBState), st.circuitOpen = false →
      st.failureCount + ts.length ≤ threshold → ts ≠ [] →
      run_failures threshold timeout st ts =
        { failureCount := st.failureCount + ts.length,
          lastFailureTime := some (ts.getLastD 0),
          circuitOpen := decide (threshold ≤ st.failureCount + ts.length) } := by
  intro ts
  induction ts with
  | nil => intro st _ _ hne; exact absurd rfl hne
  | cons t ts ih =>
    intro st hopen hlen _
    have hstep : (circuit_breaker_call threshold timeout st t false).1 =
        { failureCount := st.failureCount + 1, lastFailureTime := some t,
          circuitOpen := decide (threshold ≤ st.failureCount + 1) } := by
      unfold circuit_breaker_call
      cases hco : st.circuitOpen with
      | true => rw [hco] at hopen; exact Bool.noConfusion hopen
      | false => simp [hco]
    cases ts with
    | nil =>
      simp only [run_failures, List.foldl, hstep, List.getLastD]
      simp [run_failures, List.length] at hlen ⊢
    | cons t2 ts2 =>
      have hlen2 : st.failureCount + 1 + (t2 :: ts2).length ≤ threshold := by
        simp only [List.length_cons] at hlen ⊢
        omega
      have hopen2 : (decide (threshold ≤ st.failureCount + 1)) = false := by
        simp only [List.length_cons] at hlen
        simp only [decide_eq_false_iff_not, not_le]
        omega
      have ihh := ih { failureCount := st.failureCount + 1, lastFailureTime := some t,
                       circuitOpen := decide (threshold ≤ st.failureCount + 1) }
        (by simpa using hopen2) (by simpa using hlen2) (by simp)
      simp only [run_failures, List.foldl, hstep] at ihh ⊢
      rw [ihh]
      simp only [List.length_cons, List.getLastD_cons]
      have harith : st.failureCount + 1 + (ts2.length + 1) =
          st.failureCount + (ts2.length + 1 + 1) := by omega
      simp only [harith]

/-- C6: after `failure_threshold` consecutive failures on an operation, the
next call fails fast with the circuit-open error without invoking the
wrapped operation (while `timeout` has not yet elapsed since the last
failure); once more than `timeout` has elapsed since the last failure, the
next call invokes the operation again; and a success while the circuit is
closed resets the failure count to 0. -/
theorem circuit_breaker_behaviour (threshold : ℕ) (timeout : ℚ) (ts : List ℚ)
    (now now2 : ℚ) (hts : ts.length = threshold) (hpos : 1 ≤ threshold)
    (hfast : now - ts.getLastD 0 ≤ timeout)
    (hretry : timeout < now2 - ts.getLastD 0) :
    (∀ b : Bool,
      (circuit_breaker_call threshold timeout
        (run_failures threshold timeout ⟨0, none, false⟩ ts) now b).2.1 =
          .circuitOpenError ∧
      (circuit_breaker_call threshold timeout
        (run_failures threshold timeout ⟨0, none, false⟩ ts) now b).2.2 = false) ∧
    (∀ b : Bool,
      (circuit_breaker_call threshold timeout
        (run_failures threshold timeout ⟨0, none, false⟩ ts) now2 b).2.2 = true) ∧
    (∀ st : CBState, st.circuitOpen = false →
      (circuit_breaker_call threshold timeout st now true).1.failureCount = 0) := by
  have hne : ts ≠ [] := by
    intro h
    rw [h] at hts
    simp at hts
    omega
  have hfinal : run_failures threshold timeout ⟨0, none, false⟩ ts =
      { failureCount := threshold, lastFailureTime := some (ts.getLastD 0),
        circuitOpen := true } := by
    have := run_failures_spec threshold timeout ts ⟨0, none, false⟩ rfl
      (by simp [hts]) hne
    rw [this]
    simp [hts]
  refine ⟨?_, ?_, ?_⟩
  · intro b
    rw [hfinal]
    have hcond : (timeout < now - ts.getLastD 0) = False := by
      simp only [eq_iff_iff, iff_false]
      exact not_lt.mpr hfast
    simp only [circuit_breaker_call, gt_iff_lt, hcond, if_false]
    simp
  · intro b
    rw [hfinal]
    have hcond : (timeout < now2 - ts.getLastD 0) = True := by
      simp only [eq_iff_iff, iff_true]
      exact hretry
    simp only [circuit_breaker_call, gt_iff_lt, hcond, if_true]
    cases b <;> simp
  · intro st hopen
    unfold circuit_breaker_call
    cases hco : st.circuitOpen with
    | true => rw [hco] at hopen; exact Bool.noConfusion hopen
    | false => simp [hco]

/-- C6, witness: threshold 2, timeout 5; two failures at times 0 and 1 open
the circuit, the call at time 3 fails fast without invoking, the call at
time 10 invokes the operation again, and a success on a closed state resets
the count. -/
theorem circuit_breaker_witness :
    (circuit_breaker_call 2 5 (run_failures 2 5 ⟨0, none, false⟩ [0, 1]) 3 true).2.1 =
      .circuitOpenError ∧
    (circuit_breaker_call 2 5 (run_failures 2 5 ⟨0, none, false⟩ [0, 1]) 3 true).2.2 =
      false ∧
    (circuit_breaker_call 2 5 (run_failures 2 5 ⟨0, none, false⟩ [0, 1]) 10 true).2.2 =
      true ∧
    (circuit_breaker_call 2 5 ⟨1, some 0, false⟩ 3 true).1.failureCount = 0 := by
  have h := circuit_breaker_behaviour 2 5 [0, 1] 3 10 (by simp) (by norm_num)
    (by norm_num [List.getLastD]) (by norm_num [List.getLastD])
  exact ⟨(h.1 true).1, (h.1 true).2, h.2.1 true, h.2.2 ⟨1, some 0, false⟩ rfl⟩

/-! ## `retry_on_error` -/

/-- The result of one invocation of the wrapped operation. -/
inductive AttemptResult
  | success
  | retryableErr
  | fatalErr
  deriving DecidableEq

/-- Trace of a `retry_on_error` run: final outcome, number of times the
wrapped operation was invoked, and the list of delays slept (in order). -/
structure RetryTrace where
  outcome : AttemptResult
  invocations : ℕ
  sleeps : List ℚ
  deriving DecidableEq

/-- The retry loop from attempt number `attempt` with `remaining` retries
left and current delay `curDelay`.  A retryable failure with retries left
sleeps `curDelay`, multiplies the delay by `backoff`, and tries again; a
retryable failure with no retries left re-raises; success returns; a
non-retryable error re-raises immediately without sleeping. -/
def retryGo (op : ℕ → AttemptResult) (backoff : ℚ) :
    (attempt remaining : ℕ) → (curDelay : ℚ) → RetryTrace
  | attempt, 0, _ =>
    match op attempt with
    | .success => ⟨.success, 1, []⟩
    | .fatalErr => ⟨.fatalErr, 1, []⟩
    | .retryableErr => ⟨.retryableErr, 1, []⟩
  | attempt, r + 1, curDelay =>
    match op attempt with
    | .success => ⟨.success, 1, []⟩
    | .fatalErr => ⟨.fatalErr, 1, []⟩
    | .retryableErr =>
      let rest := retryGo op backoff (attempt + 1) r (curDelay * backoff)
      ⟨rest.outcome, rest.invocations + 1, curDelay :: rest.sleeps⟩

/-- `retry_on_error(max_retries, delay, backoff_factor, ...)` applied to an
operation whose `i`-th invocation returns `op i`:
the `for attempt in range(max_retries + 1)` loop. -/
def retry_on_error (op : ℕ → AttemptResult) (maxRetries : ℕ) (delay backoff : ℚ) :
    RetryTrace :=
  retryGo op backoff 0 maxRetries delay

theorem retryGo_all_fail (op : ℕ → AttemptResult) (backoff : ℚ) :
    ∀ (remaining attempt : ℕ) (curDelay : ℚ),
      (∀ i, attempt ≤ i → i ≤ attempt + remaining → op i = .retryableErr) →
      retryGo op backoff attempt remaining curDelay =
        ⟨.retryableErr, remaining + 1,
          (List.range remaining).map (fun i => curDelay * backoff ^ i)⟩ := by
  intro remaining
  induction remaining with
  | zero =>
    intro attempt curDelay hop
    unfold retryGo
    rw [hop attempt le_rfl (by omega)]
    simp
  | succ r ih =>
    intro attempt curDelay hop
    unfold retryGo
    rw [hop attempt le_rfl (by omega)]
    simp only
    rw [ih (attempt + 1) (curDelay * backoff) (fun i h1 h2 => hop i (by omega) (by omega))]
    simp only [RetryTrace.mk.injEq, true_and]
    rw [List.range_succ_eq_map]
    simp only [List.map_cons, List.map_map, pow_zero, mul_one, List.cons.injEq, true_and]
    apply List.map_congr_left
    intro i _
    simp only [Function.comp_apply]
    rw [pow_succ]
    ring

/-- C7 (amended): on each retryable failure `retry_on_error` sleeps the
current delay and then multiplies it by the backoff factor (so the slept
delays are `d, d·b, …, d·b^(maxRetries−1)`), invoking the operation up to
`maxRetries + 1` times in total — one initial attempt plus `maxRetries`
retries — before re-raising the last error; a non-retryable error
propagates from the first invocation with no sleep and no further
attempt.  (The claim's "up to maxRetries attempts in total" undercounts by
one: see the counterexample.) -/
theorem retry_attempt_count (op : ℕ → AttemptResult) (maxRetries : ℕ)
    (delay backoff : ℚ)
    (hfail : ∀ i, i ≤ maxRetries → op i = .retryableErr) :
    (retry_on_error op maxRetries delay backoff =
      ⟨.retryableErr, maxRetries + 1,
        (List.range maxRetries).map (fun i => delay * backoff ^ i)⟩) ∧
    (∀ op2 : ℕ → AttemptResult, op2 0 = .fatalErr →
      retry_on_error op2 maxRetries delay backoff = ⟨.fatalErr, 1, []⟩) := by
  constructor
  · exact retryGo_all_fail op backoff maxRetries 0 delay
      (fun i h1 h2 => hfail i (by omega))
  · intro op2 h0
    unfold retry_on_error
    cases maxRetries with
    | zero => unfold retryGo; rw [h0]
    | succ r => unfold retryGo; rw [h0]

/-- C7, counterexample to the claim as stated: with `max_retries = 1` and an
always-retryable-failing operation, the operation is invoked twice in total
(`range(max_retries + 1)`), not at most once. -/
theorem retry_attempt_count_counterexample :
    (retry_on_error (fun _ => .retryableErr) 1 1 2).invocations = 2 ∧
    ¬((retry_on_error (fun _ => .retryableErr) 1 1 2).invocations ≤ 1) := by
  constructor <;> decide

/-- C7, witness: `max_retries = 2`, initial delay 1, backoff 2 — three
invocations with sleeps `[1, 2]`, and a fatal error stops after one
invocation with no sleep. -/
theorem retry_attempt_count_witness :
    retry_on_error (fun _ => .retryableErr) 2 1 2 =
      ⟨.retryableErr, 3, [1, 1 * 2 ^ 1]⟩ ∧
    retry_on_error (fun _ => .fatalErr) 2 1 2 = ⟨.fatalErr, 1, []⟩ := by
  have h := retry_attempt_count (fun _ => .retryableErr) 2 1 2 (fun i _ => rfl)
  constructor
  · rw [h.1]
    norm_num [List.range_succ]
  · exact h.2 (fun _ => .fatalErr) rfl

/-! ## RiskSizer, dynamic mode: `TradingMode.get_mode_params` and the
sizing path of `_execute_buy_order` -/

/-- The parameter dictionary returned by `TradingMode.get_mode_params`. -/
structure ModeParams where
  positionSizeMultiplier : ℚ
  stopLossPct : ℚ
  takeProfitPct : ℚ
  maxDailyTrades : ℕ
  minRsiOversold : ℚ
  maxRsiOverbought : ℚ
  volatilityThreshold : ℚ
  maxPositionValue : ℚ
  deriving DecidableEq

/-- The `base_params` table of `get_mode_params`, with the
`max_position_value_pct` entry kept separately by the caller below. -/
def base_mode_params (mode : TradingMode) : ModeParams :=
  match mode with
  | .ultraSafe =>
    { positionSizeMultiplier := 3 / 10, stopLossPct := 5 / 1000,
      takeProfitPct := 1 / 100, maxDailyTrades := 3, minRsiOversold := 25,
      maxRsiOverbought := 75, volatilityThreshold := 2 / 100,
      maxPositionValue := 0 }
  | .conservative =>
    { positionSizeMultiplier := 5 / 10, stopLossPct := 1 / 100,
      takeProfitPct := 2 / 100, maxDailyTrades := 5, minRsiOversold := 30,
      maxRsiOverbought := 70, volatilityThreshold := 3 / 100,
      maxPositionValue := 0 }
  | .aggressive =>
    { positionSizeMultiplier := 1, stopLossPct := 15 / 1000,
      takeProfitPct := 3 / 100, maxDailyTrades := 15, minRsiOversold := 35,
      maxRsiOverbought := 65, volatilityThreshold := 5 / 100,
      maxPositionValue := 0 }

/-- `max_position_value_pct` per mode: 25% / 40% / 60% of portfolio. -/
def max_position_value_pct (mode : TradingMode) : ℚ :=
  match mode with
  | .ultraSafe => 25 / 100
  | .conservative => 40 / 100
  | .aggressive => 60 / 100

/-- `TradingMode.get_mode_params(mode, portfolio_value)`: the base table
adjusted by the portfolio-value tiers (≤$100, ≤$500, ≤$1000, ≤$5000,
≤$25000, >$25000), with `max_position_value = max(tier cap, $1)`; when no
portfolio value is given, fixed fallback caps $25/$100/$500 apply. -/
def get_mode_params (mode : TradingMode) (portfolioValue : Option ℚ) : ModeParams :=
  let p := base_mode_params mode
  match portfolioValue with
  | some pv =>
    let mpv0 := pv * max_position_value_pct mode
    let adjusted :=
      if pv ≤ 100 then
        { p with positionSizeMultiplier := p.positionSizeMultiplier * (7 / 10),
                 maxDailyTrades := min p.maxDailyTrades 5,
                 maxPositionValue := min mpv0 15 }
      else if pv ≤ 500 then
        { p with positionSizeMultiplier := p.positionSizeMultiplier * (8 / 10),
                 maxPositionValue := min mpv0 50 }
      else if pv ≤ 1000 then
        { p with positionSizeMultiplier := p.positionSizeMultiplier * (9 / 10),
                 maxPositionValue := min mpv0 100 }
      else if pv ≤ 5000 then
        { p with maxPositionValue := min mpv0 500 }
      else if pv ≤ 25000 then
        { p with positionSizeMultiplier := p.positionSizeMultiplier * (11 / 10),
                 maxDailyTrades :=
                   if mode = .aggressive then min (p.maxDailyTrades + 5) 25
                   else p.maxDailyTrades,
                 maxPositionValue := min mpv0 2500 }
      else
        { p with positionSizeMultiplier := p.positionSizeMultiplier * (12 / 10),
                 maxDailyTrades :=
                   if mode = .aggressive then min (p.maxDailyTrades + 10) 35
                   else p.maxDailyTrades,
                 volatilityThreshold :=
                   if mode = .aggressive then p.volatilityThreshold * (12 / 10)
                   else p.volatilityThreshold,
                 minRsiOversold :=
                   if mode = .aggressive then max (p.minRsiOversold - 5) 25
                   else p.minRsiOversold,
                 maxRsiOverbought :=
                   if mode = .aggressive then min (p.maxRsiOverbought + 5) 75
                   else p.maxRsiOverbought,
                 maxPositionValue := mpv0 }
    { adjusted with maxPositionValue := max adjusted.maxPositionValue 1 }
  | none =>
    { p with maxPositionValue :=
        match mode with
        | .ultraSafe => 25
        | .conservative => 100
        | .aggressive => 500 }

/-- Broker account snapshot used by `_execute_buy_order`. -/
structure Account where
  buyingPower : ℚ
  cash : ℚ
  portfolioValue : ℚ
  deriving DecidableEq

/-- `available_funds` of `_execute_buy_order`: buying power when at least
$1; else a positive cash balance; else 1% of portfolio value with a $10
floor (negative-cash margin account). -/
def available_funds (a : Account) : ℚ :=
  if a.buyingPower ≥ 1 then a.buyingPower
  else if a.cash > 0 then a.cash
  else max (a.portfolioValue * (1 / 100)) 10

/-- The decision of the sizing part of `_execute_buy_order`. -/
inductive BuyDecision
  | rejected
  | simulated (cost : ℚ)
  | submitted (notional : ℚ)
  deriving DecidableEq

/-- The sizing path of `_execute_buy_order` (custom portfolio value
disabled, so `portfolio_value` is the account's).  In fixed mode the fixed
amount is checked against `remaining = portfolio_value - allocated`; in
dynamic mode the notional is capped at `min(5% of portfolio × mode
multiplier, mode max-position-value, 10% of portfolio)` and, when available
funds fall short of that cap, reduced to
`min(95% of available funds, cap)`.  A zero-buying-power account gets a
simulated (not submitted) order of `max(1, int(notional/ask))` shares. -/
def execute_buy_sizing (fixedEnabled : Bool) (fixedAmount : ℚ) (mode : TradingMode)
    (acct : Account) (allocated : ℚ) (ask : ℚ) : BuyDecision :=
  let af := available_funds acct
  let pv := acct.portfolioValue
  if fixedEnabled then
    let remaining := pv - allocated
    if fixedAmount > remaining then .rejected
    else if fixedAmount < 1 then .rejected
    else if acct.buyingPower = 0 then
      .simulated ((max 1 ⌊fixedAmount / ask⌋ : ℤ) * ask)
    else .submitted fixedAmount
  else
    let mp := get_mode_params mode (some pv)
    let cap := min (pv * (5 / 100) * mp.positionSizeMultiplier)
      (min mp.maxPositionValue (pv * (1 / 10)))
    if cap < 1 then .rejected
    else
      let notional := if af < cap then min (af * (95 / 100)) cap else cap
      if notional < 1 then .rejected
      else if acct.buyingPower = 0 then
        .simulated ((max 1 ⌊notional / ask⌋ : ℤ) * ask)
      else .submitted notional

theorem available_funds_pos (a : Account) : 0 < available_funds a := by
  unfold available_funds
  split
  · linarith
  · split
    · assumption
    · have : (10 : ℚ) ≤ max (a.portfolioValue * (1 / 100)) 10 := le_max_right _ _
      linarith

/-- C8 (amended): every buy notional submitted in dynamic mode is at most
`min(5% of portfolio × mode position-size multiplier, mode
max-position-value, 10% of portfolio)`, and never exceeds the currently
available funds; when the available funds are below that cap, the notional
is further reduced to at most 95% of the available funds.  (The claim's
unconditional "never exceeds 95% of available funds" fails when the
available funds meet the cap exactly: see the counterexample.) -/
theorem dynamic_notional_capped (mode : TradingMode) (acct : Account)
    (allocated ask n : ℚ)
    (h : execute_buy_sizing false 0 mode acct allocated ask = .submitted n) :
    n ≤ min (acct.portfolioValue * (5 / 100) *
        (get_mode_params mode (some acct.portfolioValue)).positionSizeMultiplier)
      (min (get_mode_params mode (some acct.portfolioValue)).maxPositionValue
        (acct.portfolioValue * (1 / 10))) ∧
    n ≤ available_funds acct ∧
    (available_funds acct <
        min (acct.portfolioValue * (5 / 100) *
          (get_mode_params mode (some acct.portfolioValue)).positionSizeMultiplier)
        (min (get_mode_params mode (some acct.portfolioValue)).maxPositionValue
          (acct.portfolioValue * (1 / 10))) →
      n ≤ (95 / 100) * available_funds acct) := by
  unfold execute_buy_sizing at h
  simp only [Bool.false_eq_true, if_false] at h
  set af := available_funds acct with haf
  set cap := min (acct.portfolioValue * (5 / 100) *
      (get_mode_params mode (some acct.portfolioValue)).positionSizeMultiplier)
    (min (get_mode_params mode (some acct.portfolioValue)).maxPositionValue
      (acct.portfolioValue * (1 / 10))) with hcap
  by_cases h1 : cap < 1
  · rw [if_pos h1] at h
    exact absurd h (by simp)
  · rw [if_neg h1] at h
    by_cases h2 : af < cap
    · rw [if_pos h2] at h
      by_cases h3 : min (af * (95 / 100)) cap < 1
      · rw [if_pos h3] at h
        exact absurd h (by simp)
      · rw [if_neg h3] at h
        by_cases h4 : acct.buyingPower = 0
        · rw [if_pos h4] at h
          exact absurd h (by simp)
        · rw [if_neg h4] at h
          have hn : n = min (af * (95 / 100)) cap := by
            injection h with hh
            exact hh.symm
          have hafpos : 0 < af := available_funds_pos acct
          refine ⟨hn ▸ min_le_right _ _, ?_, ?_⟩
          · rw [hn]
            calc min (af * (95 / 100)) cap ≤ af * (95 / 100) := min_le_left _ _
              _ ≤ af := by linarith
          · intro _
            rw [hn]
            calc min (af * (95 / 100)) cap ≤ af * (95 / 100) := min_le_left _ _
              _ = (95 / 100) * af := by ring
    · rw [if_neg h2] at h
      by_cases h3 : cap < 1
      · exact absurd h3 h1
      · rw [if_neg h3] at h
        by_cases h4 : acct.buyingPower = 0
        · rw [if_pos h4] at h
          exact absurd h (by simp)
        · rw [if_neg h4] at h
          have hn : n = cap := by
            injection h with hh
            exact hh.symm
          refine ⟨hn ▸ le_rfl, ?_, ?_⟩
          · rw [hn]
            exact le_of_not_lt h2
          · intro hlt
            exact absurd hlt h2

/-- C8, counterexample to the claim as stated: a conservative-mode account
with portfolio $1000 and buying power exactly equal to the $22.50 cap
(5% × 1000 × 0.45) submits the full $22.50 — more than 95% of the
available funds ($21.375), because the 95% reduction only applies when
available funds are strictly below the cap. -/
theorem dynamic_notional_95pct_counterexample :
    execute_buy_sizing false 0 .conservative
        { buyingPower := 45 / 2, cash := 45 / 2, portfolioValue := 1000 } 0 10 =
      .submitted (45 / 2) ∧
    ¬((45 / 2 : ℚ) ≤ (95 / 100) *
        available_funds { buyingPower := 45 / 2, cash := 45 / 2, portfolioValue := 1000 }) := by
  constructor
  · norm_num [execute_buy_sizing, available_funds, get_mode_params, base_mode_params,
      max_position_value_pct]
  · norm_num [available_funds]

/-- C8, witness: with ample buying power ($1000), the conservative-mode
submitted notional $22.50 satisfies the cap and the available-funds bound. -/
theorem dynamic_notional_capped_witness :
    (45 / 2 : ℚ) ≤ min ((1000 : ℚ) * (5 / 100) *
        (get_mode_params .conservative (some 1000)).positionSizeMultiplier)
      (min (get_mode_params .conservative (some 1000)).maxPositionValue
        ((1000 : ℚ) * (1 / 10))) ∧
    (45 / 2 : ℚ) ≤ available_funds
      { buyingPower := 1000, cash := 1000, portfolioValue := 1000 } := by
  have h := dynamic_notional_capped .conservative
    { buyingPower := 1000, cash := 1000, portfolioValue := 1000 } 0 10 (45 / 2)
    (by norm_num [execute_buy_sizing, available_funds, get_mode_params, base_mode_params,
      max_position_value_pct])
  exact ⟨h.1, h.2.1⟩

end AlpacaBot
